import Mathlib

/-!
# Verification of the omicron bootstore v0 trust-quorum state machine

Shallow embedding of `bootstore/src/schemes/v0/fsm.rs` and
`bootstore/src/schemes/v0/fsm2.rs` (the per-peer FSM and its
request/acknowledgement tracker), together with proofs about the claims of
the natural-language specification.

Rust `BTreeMap` values are embedded as association lists that the operations
keep sorted strictly by key; `std::time::Instant` and tick counters become
`Nat`; `Uuid::new_v4` (an external randomness source) becomes an explicit
caller-supplied fresh value; the fallible `.unwrap()` in
`RequestManager::expired` is modelled by an `Option` result where `none`
is a panic.
-/

namespace Bootstore

/-- Modelled from the spec: `sled_hardware::Baseboard` (the PeerId) is not
part of this repository's sources; the spec describes it as an opaque,
totally-ordered identifier, so peers are embedded as numbers. -/
abbrev Baseboard := Nat

/-- `uuid::Uuid`, an opaque identifier with equality and ordering. -/
abbrev Uuid := Nat

/-- `std::time::Instant` in the deterministic tick model: a counter. -/
abbrev Instant := Nat

/-- `std::time::Duration` in the deterministic tick model. -/
abbrev Duration := Nat

/-! ## `std::collections::BTreeMap`, as a sorted association list -/

/-- A `BTreeMap` with `Nat`-like keys: an association list which the
operations below keep strictly sorted by key. -/
abbrev BMap (β : Type) := List (Nat × β)

namespace BMap

/-- `BTreeMap::get` -/
def find? {β : Type} (m : BMap β) (k : Nat) : Option β :=
  match m with
  | [] => none
  | (k₁, v₁) :: rest => if k = k₁ then some v₁ else find? rest k

/-- `BTreeMap::insert`, keeping the list sorted and replacing an existing
binding of the same key. -/
def insert {β : Type} (m : BMap β) (k : Nat) (v : β) : BMap β :=
  match m with
  | [] => [(k, v)]
  | (k₁, v₁) :: rest =>
    if k < k₁ then (k, v) :: (k₁, v₁) :: rest
    else if k = k₁ then (k, v) :: rest
    else (k₁, v₁) :: insert rest k v

/-- `BTreeMap::remove`, dropping the binding of `k` if present. -/
def erase {β : Type} (m : BMap β) (k : Nat) : BMap β :=
  match m with
  | [] => []
  | (k₁, v₁) :: rest => if k = k₁ then rest else (k₁, v₁) :: erase rest k

/-- The keys of the map, in storage order. -/
def keys {β : Type} (m : BMap β) : List Nat := m.map Prod.fst

/-- Well-formedness of the embedding: the keys are strictly sorted, as they
are in every actual `BTreeMap` (and in every map the operations above
build). -/
abbrev SortedKeys {β : Type} (m : BMap β) : Prop :=
  List.Pairwise (fun a b => a.1 < b.1) m

end BMap

/-- A `BTreeSet` of peers: a list kept strictly sorted by the insert below. -/
abbrev BSet := List Nat

namespace BSet

/-- `BTreeSet::insert` keeping the list sorted without duplicates. -/
def insert (s : BSet) (x : Nat) : BSet :=
  match s with
  | [] => [x]
  | y :: rest =>
    if x < y then x :: y :: rest
    else if x = y then y :: rest
    else y :: insert rest x

end BSet

/-! ## Secret material (`fsm2.rs`, `share_pkg.rs`) -/

/-- `Share(Vec<u8>)` from `fsm2.rs`: one peer's fragment of the rack
secret. -/
structure Share where
  bytes : List Nat
deriving DecidableEq

/-- The output of `Share`'s manual `Debug` implementation, which is
`f.debug_struct("Share").finish()`: the struct name alone, no fields. -/
def Share.debugFmt (_s : Share) : String := "Share"

/-- `ShareIdx(usize)` from `fsm2.rs`: an index into an encrypted share. -/
structure ShareIdx where
  idx : Nat
deriving DecidableEq

/-- Modelled from the spec: the reconstructed rack secret, treated as an
opaque value (the secret-sharing primitive is an external collaborator). -/
structure RackSecret where
  val : Nat
deriving DecidableEq

/-- Modelled from the spec: `SharePkg` (from the missing `share_pkg.rs`) is
a founding member's durable secret material: `rack_uuid`, the reconstruction
`threshold`, and this peer's individual secret `share`. -/
structure SharePkg where
  rack_uuid : Uuid
  threshold : Nat
  share : Share
deriving DecidableEq

/-- Modelled from the spec: `LearnedSharePkg` is structurally similar to
`SharePkg` but held by a peer that joined via the learning protocol. -/
structure LearnedSharePkg where
  rack_uuid : Uuid
  threshold : Nat
  share : Share
deriving DecidableEq

/-- Modelled from the spec: the error of the external secret-splitting
primitive, opaque to the core. -/
structure SplitError where
  code : Nat
deriving DecidableEq

/-! ## Wire messages (`messages.rs`, missing from the sources) -/

/-- Modelled from the spec: the request vocabulary `Init(SharePkg)`,
`GetShare{rack_uuid}` and `Learn`. -/
inductive RequestType where
  | init (pkg : SharePkg)
  | getShare (rack_uuid : Uuid)
  | learn
deriving DecidableEq

/-- Modelled from the spec: `Request { id, type_ }`. -/
structure Request where
  id : Uuid
  type_ : RequestType
deriving DecidableEq

/-- Modelled from the spec: the response vocabulary (ack, a share payload,
or a learned package). -/
inductive ResponseType where
  | initAck
  | share (s : Share)
  | pkg (p : LearnedSharePkg)
deriving DecidableEq

/-- Modelled from the spec: `Response { request_id, type_ }`. -/
structure Response where
  request_id : Uuid
  type_ : ResponseType
deriving DecidableEq

/-- Modelled from the spec: `Msg`, either a request or a response. -/
inductive Msg where
  | req (r : Request)
  | rsp (r : Response)
deriving DecidableEq

/-- Modelled from the spec: `Envelope { to, msg }`, an outbound message
paired with its destination peer. -/
structure Envelope where
  to_ : Baseboard
  msg : Msg
deriving DecidableEq

/-! ## The request tracker (`fsm2.rs`) -/

/-- `Config` from `fsm2.rs`: the three timeouts, in ticks. -/
structure Config where
  learn_timeout : Duration
  rack_init_timeout : Duration
  rack_secret_request_timeout : Duration
deriving DecidableEq

/-- `InitAcks`: acknowledgement tracking for `RequestType::InitRack`. -/
structure InitAcks where
  expected : BSet
  received : BSet
deriving DecidableEq

/-- `InitAcks::default()`: both sets empty. -/
def InitAcks.default : InitAcks := ⟨[], []⟩

/-- `ShareAcks`: acknowledgement tracking for `LoadRackSecret` and
`Learn`: a threshold and the shares received so far, keyed by peer. -/
structure ShareAcks where
  threshold : Nat
  received : BMap Share
deriving DecidableEq

/-- `ShareAcks::new(threshold)` -/
def ShareAcks.new (threshold : Nat) : ShareAcks := ⟨threshold, []⟩

/-- `TrackableRequest` from `fsm2.rs`. -/
inductive TrackableRequest where
  | initRack (rack_uuid : Uuid) (packages : BMap SharePkg) (acks : InitAcks)
  | loadRackSecret (rack_uuid : Uuid) (acks : ShareAcks)
  | learn (rack_uuid : Uuid) (frm : Baseboard) (acks : ShareAcks)
deriving DecidableEq

/-- `RequestManager` from `fsm2.rs`: the primary map from request id to
request, and the secondary expiry index. -/
structure RequestManager where
  config : Config
  requests : BMap TrackableRequest
  expiry_to_id : BMap Uuid
deriving DecidableEq

namespace RequestManager

/-- The empty tracker (no constructor appears in `fsm2.rs`; both maps start
empty). -/
def init (config : Config) : RequestManager := ⟨config, [], []⟩

/-- `RequestManager::new_request`. `Uuid::new_v4()` draws fresh randomness
from outside the core, so the fresh id is an explicit argument here. -/
def new_request (rm : RequestManager) (expiry : Instant)
    (request : TrackableRequest) (id : Uuid) : Uuid × RequestManager :=
  (id, { rm with
          requests := BMap.insert rm.requests id request,
          expiry_to_id := BMap.insert rm.expiry_to_id expiry id })

/-- `RequestManager::new_init_rack` -/
def new_init_rack (rm : RequestManager) (now : Instant) (rack_uuid : Uuid)
    (packages : BMap SharePkg) (id : Uuid) : Uuid × RequestManager :=
  let expiry := now + rm.config.rack_init_timeout
  rm.new_request expiry
    (TrackableRequest.initRack rack_uuid packages InitAcks.default) id

/-- `RequestManager::new_load_rack_secret` -/
def new_load_rack_secret (rm : RequestManager) (now : Instant)
    (rack_uuid : Uuid) (threshold : Nat) (id : Uuid) :
    Uuid × RequestManager :=
  let expiry := now + rm.config.rack_secret_request_timeout
  rm.new_request expiry
    (TrackableRequest.loadRackSecret rack_uuid (ShareAcks.new threshold)) id

/-- `RequestManager::new_learn` -/
def new_learn (rm : RequestManager) (now : Instant) (rack_uuid : Uuid)
    (threshold : Nat) (frm : Baseboard) (id : Uuid) :
    Uuid × RequestManager :=
  let expiry := now + rm.config.learn_timeout
  rm.new_request expiry
    (TrackableRequest.learn rack_uuid frm (ShareAcks.new threshold)) id

/-- The loop body of `RequestManager::expired`, recursing over the expiry
index viewed from its latest-expiring end (`pop_last`), exactly as the
`while let` in the source: the first argument is the reversed expiry list,
so its head is the entry `pop_last` yields. `none` models the panic of the
`.unwrap()` on `self.requests.remove(&request_id)`. -/
def expiredGo (reqs : BMap TrackableRequest) (revExpiry : List (Instant × Uuid))
    (now : Instant) (acc : List TrackableRequest) :
    Option (List TrackableRequest × BMap TrackableRequest × List (Instant × Uuid)) :=
  match revExpiry with
  | [] => some (acc, reqs, [])
  | (expiry, request_id) :: rest =>
    if expiry > now then
      match BMap.find? reqs request_id with
      | none => none
      | some req => expiredGo (BMap.erase reqs request_id) rest now (acc ++ [req])
    else
      -- Put the last request back. We are done.
      some (acc, reqs, (expiry, request_id) :: rest)

/-- `RequestManager::expired`. Returns the popped requests (in pop order)
and the updated tracker, or `none` when the source would panic on its
`.unwrap()`. -/
def expired (rm : RequestManager) (now : Instant) :
    Option (List TrackableRequest × RequestManager) :=
  match expiredGo rm.requests rm.expiry_to_id.reverse now [] with
  | none => none
  | some (ex, reqs, revRemaining) =>
    some (ex, { rm with requests := reqs, expiry_to_id := revRemaining.reverse })

/-- `RequestManager::on_init_ack`: insert the sender into the received set
of an `InitRack` request, report (and delete) it when the received set
equals the expected set; drop the ack when the id is unknown or names a
different request kind. -/
def on_init_ack (rm : RequestManager) (frm : Baseboard) (request_id : Uuid) :
    Bool × RequestManager :=
  match BMap.find? rm.requests request_id with
  | some (TrackableRequest.initRack rack_uuid packages acks) =>
    let acks' : InitAcks := { acks with received := BSet.insert acks.received frm }
    if acks'.received = acks'.expected then
      (true, { rm with requests := BMap.erase rm.requests request_id })
    else
      let req' := TrackableRequest.initRack rack_uuid packages acks'
      (false, { rm with requests := BMap.insert rm.requests request_id req' })
  | _ => (false, rm)

/-- `RequestManager::on_share`: record the sender's share into a
`LoadRackSecret` or `Learn` request (keyed by peer, so re-sends replace);
once the number of distinct senders equals the threshold, remove the
request and return it. -/
def on_share (rm : RequestManager) (frm : Baseboard) (request_id : Uuid)
    (share : Share) : Option TrackableRequest × RequestManager :=
  match BMap.find? rm.requests request_id with
  | some (TrackableRequest.loadRackSecret rack_uuid acks) =>
    let acks' : ShareAcks := { acks with received := BMap.insert acks.received frm share }
    if acks'.received.length = acks'.threshold then
      (some (TrackableRequest.loadRackSecret rack_uuid acks'),
       { rm with requests := BMap.erase rm.requests request_id })
    else
      let req' := TrackableRequest.loadRackSecret rack_uuid acks'
      (none, { rm with requests := BMap.insert rm.requests request_id req' })
  | some (TrackableRequest.learn rack_uuid frm₀ acks) =>
    let acks' : ShareAcks := { acks with received := BMap.insert acks.received frm share }
    if acks'.received.length = acks'.threshold then
      (some (TrackableRequest.learn rack_uuid frm₀ acks'),
       { rm with requests := BMap.erase rm.requests request_id })
    else
      let req' := TrackableRequest.learn rack_uuid frm₀ acks'
      (none, { rm with requests := BMap.insert rm.requests request_id req' })
  | _ => (none, rm)

end RequestManager

/-! ## The per-peer FSM (`fsm.rs`); its supporting modules `state.rs`,
`fsm_output.rs`, `state_initial_member.rs`, `state_learning.rs` and
`state_learned.rs` are absent from the sources and are modelled from the
spec where noted. -/

/-- Modelled from the spec: `RackSecretState`, the tri-state secret value of
a member (`absent` is the surrounding `Option` being `none`): collecting a
peer-keyed share map, or the resolved cached secret. -/
inductive RackSecretState where
  | shares (m : BMap Share)
  | secret (s : RackSecret)
deriving DecidableEq

/-- Modelled from the spec: `RackInitState`, the initializer's ephemeral
bookkeeping: start tick, member count, and the set of acknowledged peers
(fields as constructed in `Fsm::init_rack`). -/
structure RackInitState where
  start : Instant
  total_members : Nat
  acks : BSet
deriving DecidableEq

/-- `LearnAttempt` (from `fsm2.rs`): the peer contacted and the expiry. -/
structure LearnAttempt where
  peer : Baseboard
  expiry : Instant
deriving DecidableEq

/-- Modelled from the spec: the `InitialMember` state payload, with the
fields `Fsm::init_rack` and `Fsm::load_rack_secret` construct and read
(the pending learn-request payload is opaque bookkeeping here). -/
structure InitialMemberState where
  pkg : SharePkg
  distributed_shares : BMap ShareIdx
  rack_init_state : Option RackInitState
  pending_learn_requests : BMap Instant
  rack_secret_state : Option RackSecretState
deriving DecidableEq

/-- Modelled from the spec: the `Learning` state payload: at most one
outstanding learn attempt. -/
structure LearningState where
  attempt : Option LearnAttempt
deriving DecidableEq

/-- Modelled from the spec: the `Learned` state payload, as read by
`Fsm::load_rack_secret`. -/
structure LearnedState where
  pkg : LearnedSharePkg
  rack_secret_state : Option RackSecretState
deriving DecidableEq

/-- The four protocol states of a peer (`state.rs`, via the matches in
`fsm.rs`). -/
inductive State where
  | uninitialized
  | initialMember (s : InitialMemberState)
  | learning (s : LearningState)
  | learned (s : LearnedState)
deriving DecidableEq

/-- The API-visible error taxonomy (`fsm_output.rs`, as listed in the
spec's error-handling section and used in `fsm.rs`). -/
inductive ApiError where
  | rackAlreadyInitialized
  | peerAlreadyInitialized
  | rackNotInitialized
  | stillLearning
  | rackInitFailed (e : SplitError)
deriving DecidableEq

/-- The API-visible success values used by `fsm.rs`. -/
inductive ApiOutput where
  | rackSecret (s : RackSecret)
  | rackInitComplete
deriving DecidableEq

/-- `Result<ApiOutput, ApiError>` -/
inductive ApiResult where
  | ok (o : ApiOutput)
  | err (e : ApiError)
deriving DecidableEq

/-- Modelled from the spec: the `Output` contract returned by every core
operation: `persist`, the envelopes to send, and an optional API result. -/
structure Output where
  persist : Bool
  envelopes : List Envelope
  api_output : Option ApiResult
deriving DecidableEq

/-- Modelled from the spec: `Output::none()`, an output with nothing in it
(no persistence, no envelopes, no API value). -/
def Output.empty : Output := ⟨false, [], Option.none⟩

/-- Modelled from the spec: `impl From<ApiError> for Output` as used by
`fsm.rs` (`ApiError::...into()`): an error carried in `api_output`, with no
persistence and no envelopes. -/
def Output.fromApiError (e : ApiError) : Output :=
  ⟨false, [], some (ApiResult.err e)⟩

/-- Modelled from the spec: `FsmCommonData` (from `state.rs`) with the
fields `fsm.rs` reads and writes: identity, config, clock, known peers, and
the pending rack-secret API request marker. -/
structure FsmCommonData where
  id : Baseboard
  config : Config
  clock : Instant
  peers : BSet
  pending_api_rack_secret_request : Option Instant
deriving DecidableEq

/-- The per-peer state machine of `fsm.rs`: common data plus the current
protocol state (the source's `Option<State>` is only an ownership device,
per the spec's design notes, and is dropped here). -/
structure Fsm where
  common : FsmCommonData
  state : State
deriving DecidableEq

namespace Fsm

/-- `Fsm::new`, with `FsmCommonData::new(id, config)` modelled from the
spec: clock starts at zero, no known peers, no pending request. -/
def new (id : Baseboard) (config : Config) (state : State) : Fsm :=
  { common := { id := id, config := config, clock := 0, peers := [],
                pending_api_rack_secret_request := Option.none },
    state := state }

/-- `Fsm::init_rack`. The external secret-splitting primitive
(`create_pkgs`, an external collaborator per the spec) and the fresh
`Uuid::new_v4()` are explicit inputs: `pkgsResult` is the primitive's
response, one package per member of the (sorted) membership set. -/
def init_rack (fsm : Fsm) (rack_uuid : Uuid) (initial_membership : List Baseboard)
    (request_id : Uuid) (pkgsResult : Except SplitError (List SharePkg)) :
    Fsm × Output :=
  match fsm.state with
  | State.uninitialized =>
    (match pkgsResult with
     | Except.ok pkgs =>
       let total_members := initial_membership.length
       let pairs := pkgs.zip initial_membership
       let state' :=
         match pairs.find? (fun p => p.2 == fsm.common.id) with
         | some (pkg, peer) =>
           let ris : RackInitState :=
             { start := fsm.common.clock, total_members := total_members,
               acks := [peer] }
           State.initialMember
             { pkg := pkg, distributed_shares := [],
               rack_init_state := some ris, pending_learn_requests := [],
               rack_secret_state := Option.none }
         | Option.none => fsm.state
       let envelopes := pairs.filterMap (fun p =>
         if p.2 == fsm.common.id then Option.none
         else some { to_ := p.2,
                     msg := Msg.req { id := request_id,
                                      type_ := RequestType.init p.1 } })
       ({ fsm with state := state' },
        { persist := true, envelopes := envelopes, api_output := Option.none })
     | Except.error e => (fsm, Output.fromApiError (ApiError.rackInitFailed e)))
  | _ => (fsm, Output.fromApiError ApiError.rackAlreadyInitialized)

/-- `Fsm::load_rack_secret`. -/
def load_rack_secret (fsm : Fsm) : Fsm × Output :=
  match fsm.state with
  | State.uninitialized => (fsm, Output.fromApiError ApiError.rackNotInitialized)
  | State.learning _ => (fsm, Output.fromApiError ApiError.stillLearning)
  | State.initialMember ims =>
    (match ims.rack_secret_state with
     | Option.none =>
       let common' := { fsm.common with
                        pending_api_rack_secret_request := some fsm.common.clock }
       let rss := RackSecretState.shares [(fsm.common.id, ims.pkg.share)]
       let ims' := { ims with rack_secret_state := some rss }
       ({ common := common', state := State.initialMember ims' }, Output.empty)
     | some (RackSecretState.shares _) =>
       let common' := { fsm.common with
                        pending_api_rack_secret_request := some fsm.common.clock }
       ({ fsm with common := common' }, Output.empty)
     | some (RackSecretState.secret rack_secret) =>
       (fsm, { persist := false, envelopes := [],
               api_output := some (ApiResult.ok (ApiOutput.rackSecret rack_secret)) }))
  | State.learned ls =>
    (match ls.rack_secret_state with
     | Option.none =>
       let common' := { fsm.common with
                        pending_api_rack_secret_request := some fsm.common.clock }
       let rss := RackSecretState.shares [(fsm.common.id, ls.pkg.share)]
       let ls' := { ls with rack_secret_state := some rss }
       ({ common := common', state := State.learned ls' }, Output.empty)
     | some (RackSecretState.shares _) =>
       let common' := { fsm.common with
                        pending_api_rack_secret_request := some fsm.common.clock }
       ({ fsm with common := common' }, Output.empty)
     | some (RackSecretState.secret rack_secret) =>
       (fsm, { persist := false, envelopes := [],
               api_output := some (ApiResult.ok (ApiOutput.rackSecret rack_secret)) }))

/-- The cached secret, when the peer's rack-secret state is resolved. -/
def resolvedSecret (fsm : Fsm) : Option RackSecret :=
  match fsm.state with
  | State.initialMember ims =>
    (match ims.rack_secret_state with
     | some (RackSecretState.secret s) => some s
     | _ => Option.none)
  | State.learned ls =>
    (match ls.rack_secret_state with
     | some (RackSecretState.secret s) => some s
     | _ => Option.none)
  | _ => Option.none

/-- Whether the peer is an initial member or learned member whose
rack-secret state is absent. -/
def rackSecretAbsent (fsm : Fsm) : Bool :=
  match fsm.state with
  | State.initialMember ims => ims.rack_secret_state.isNone
  | State.learned ls => ls.rack_secret_state.isNone
  | _ => false

/-- The peer's own share from its (initial or learned) package. -/
def ownShare (fsm : Fsm) : Option Share :=
  match fsm.state with
  | State.initialMember ims => some ims.pkg.share
  | State.learned ls => some ls.pkg.share
  | _ => Option.none

end Fsm

/-- Replace only the rack-secret state inside an `InitialMember` or
`Learned` state, leaving every other field alone (identity on the other
states); used to phrase frame conditions. -/
def State.withRackSecretState : State → Option RackSecretState → State
  | State.initialMember ims, o => State.initialMember { ims with rack_secret_state := o }
  | State.learned ls, o => State.learned { ls with rack_secret_state := o }
  | s, _ => s

/-- Whether an envelope carries an `Init(..)` request with the given
request id. -/
def Envelope.isInitReq (request_id : Uuid) (e : Envelope) : Bool :=
  match e.msg with
  | Msg.req r =>
    r.id == request_id &&
      (match r.type_ with
       | RequestType.init _ => true
       | _ => false)
  | _ => false

/-! ## Specification-side predicates and reachability -/

/-- The invariant stated by the spec for the `RequestManager` (written from
the spec's words, to be compared with the code): every request-id present in
the primary mapping has exactly one corresponding entry in the expiry index,
and every expiry-index entry names a request-id present in the primary
mapping. -/
def RequestManager.IndexInvariantSpec (rm : RequestManager) : Prop :=
  (∀ id ∈ BMap.keys rm.requests,
     (rm.expiry_to_id.filter (fun p => p.2 == id)).length = 1) ∧
  (∀ p ∈ rm.expiry_to_id, p.2 ∈ BMap.keys rm.requests)

instance (rm : RequestManager) : Decidable (RequestManager.IndexInvariantSpec rm) := by
  unfold RequestManager.IndexInvariantSpec
  infer_instance

/-- The expected-ack set of an `InitRack` request is empty (trivially true
for the other request kinds). -/
def TrackableRequest.initExpectedEmpty : TrackableRequest → Prop
  | TrackableRequest.initRack _ _ acks => acks.expected = []
  | _ => True

/-- Every `InitRack` request tracked by the manager has an empty
expected-ack set. -/
def RequestManager.InitExpectedEmptyInv (rm : RequestManager) : Prop :=
  ∀ p ∈ rm.requests, TrackableRequest.initExpectedEmpty p.2

/-- The request managers reachable from the empty tracker by any sequence
of the six API calls of `fsm2.rs` (`expired` steps only when the source
would not panic). -/
inductive Reachable (cfg : Config) : RequestManager → Prop where
  | init : Reachable cfg (RequestManager.init cfg)
  | new_init_rack {rm : RequestManager} (now rack_uuid : Nat)
      (packages : BMap SharePkg) (id : Uuid) (h : Reachable cfg rm) :
      Reachable cfg (rm.new_init_rack now rack_uuid packages id).2
  | new_load_rack_secret {rm : RequestManager} (now rack_uuid threshold : Nat)
      (id : Uuid) (h : Reachable cfg rm) :
      Reachable cfg (rm.new_load_rack_secret now rack_uuid threshold id).2
  | new_learn {rm : RequestManager} (now rack_uuid threshold : Nat)
      (frm : Baseboard) (id : Uuid) (h : Reachable cfg rm) :
      Reachable cfg (rm.new_learn now rack_uuid threshold frm id).2
  | expired {rm rm' : RequestManager} {ex : List TrackableRequest}
      (now : Instant) (h : Reachable cfg rm)
      (hstep : rm.expired now = some (ex, rm')) : Reachable cfg rm'
  | on_init_ack {rm : RequestManager} (frm : Baseboard) (id : Uuid)
      (h : Reachable cfg rm) : Reachable cfg (rm.on_init_ack frm id).2
  | on_share {rm : RequestManager} (frm : Baseboard) (id : Uuid)
      (share : Share) (h : Reachable cfg rm) :
      Reachable cfg (rm.on_share frm id share).2

/-- The contract the spec states for `RequestManager::on_share` (written
from the spec's words, to be compared with the code): resubmission by an
already-recorded peer does not increase the count of collected shares; the
completed request is returned, and consumed from the tracker, exactly when
the number of distinct recorded peers equals the threshold (otherwise it
stays tracked with the new share merged in); and an unknown request id or
an id naming an `InitRack` request yields nothing and leaves the tracker
unchanged. -/
def OnShareContract (rm : RequestManager) (frm : Baseboard) (request_id : Uuid)
    (share : Share) (ru : Uuid) (acks : ShareAcks) (frm₀ : Baseboard)
    (pkgs : BMap SharePkg) (iacks : InitAcks) : Prop :=
  (BMap.find? rm.requests request_id
      = some (TrackableRequest.loadRackSecret ru acks) →
    (((BMap.find? acks.received frm).isSome = true →
        (BMap.insert acks.received frm share).length = acks.received.length) ∧
      ((rm.on_share frm request_id share).1.isSome = true ↔
        (BMap.insert acks.received frm share).length = acks.threshold) ∧
      ((rm.on_share frm request_id share).1.isSome = true →
        BMap.find? (rm.on_share frm request_id share).2.requests request_id
          = Option.none) ∧
      ((rm.on_share frm request_id share).1 = Option.none →
        BMap.find? (rm.on_share frm request_id share).2.requests request_id
          = some (TrackableRequest.loadRackSecret ru
              { threshold := acks.threshold,
                received := BMap.insert acks.received frm share })))) ∧
  (BMap.find? rm.requests request_id
      = some (TrackableRequest.learn ru frm₀ acks) →
    (((BMap.find? acks.received frm).isSome = true →
        (BMap.insert acks.received frm share).length = acks.received.length) ∧
      ((rm.on_share frm request_id share).1.isSome = true ↔
        (BMap.insert acks.received frm share).length = acks.threshold) ∧
      ((rm.on_share frm request_id share).1.isSome = true →
        BMap.find? (rm.on_share frm request_id share).2.requests request_id
          = Option.none) ∧
      ((rm.on_share frm request_id share).1 = Option.none →
        BMap.find? (rm.on_share frm request_id share).2.requests request_id
          = some (TrackableRequest.learn ru frm₀
              { threshold := acks.threshold,
                received := BMap.insert acks.received frm share })))) ∧
  (BMap.find? rm.requests request_id = Option.none →
    rm.on_share frm request_id share = (Option.none, rm)) ∧
  (BMap.find? rm.requests request_id
      = some (TrackableRequest.initRack ru pkgs iacks) →
    rm.on_share frm request_id share = (Option.none, rm))

/-! ## Concrete inputs used by the counterexamples and witnesses -/

/-- A small configuration: learn 10 ticks, rack-init 3 ticks, rack-secret 1
tick. -/
def cfgC : Config := ⟨10, 3, 1⟩

/-- Three share packages for rack 77, threshold 2. -/
def pkg1 : SharePkg := ⟨77, 2, ⟨[101]⟩⟩

def pkg2 : SharePkg := ⟨77, 2, ⟨[102]⟩⟩

def pkg3 : SharePkg := ⟨77, 2, ⟨[103]⟩⟩

/-- A tracker holding a `LoadRackSecret` request (id 1, expiry 1) and a
`Learn` request (id 2, expiry 10), both created at tick 0. -/
def rmTwo : RequestManager :=
  (((RequestManager.init cfgC).new_load_rack_secret 0 77 2 1).2.new_learn 0 77 2 9 2).2

/-- A tracker that created a threshold-1 `LoadRackSecret` request (id 41) at
tick 0 and then completed it by a share from peer 9. -/
def rmDone : RequestManager :=
  (((RequestManager.init cfgC).new_load_rack_secret 0 77 1 41).2.on_share 9 41 ⟨[5]⟩).2

/-- A tracker with one freshly created `InitRack` request (id 55) expecting
the package for peer 2. -/
def rmInit : RequestManager :=
  ((RequestManager.init cfgC).new_init_rack 0 77 [(2, pkg2)] 55).2

/-- A tracker with one threshold-2 `LoadRackSecret` request (id 41). -/
def rmLoad : RequestManager :=
  ((RequestManager.init cfgC).new_load_rack_secret 0 77 2 41).2

/-- Peer 1, uninitialized. -/
def fsmU1 : Fsm := Fsm.new 1 cfgC State.uninitialized

/-- Peer 0, uninitialized (used with a membership set it does not belong
to). -/
def fsmU0 : Fsm := Fsm.new 0 cfgC State.uninitialized

/-- Peer 1 as an initial member at tick 3 that knows peer 2, with no
rack-secret state. -/
def fsmIM : Fsm :=
  { common := { id := 1, config := cfgC, clock := 3, peers := [2],
                pending_api_rack_secret_request := Option.none },
    state := State.initialMember
      { pkg := pkg1, distributed_shares := [], rack_init_state := Option.none,
        pending_learn_requests := [], rack_secret_state := Option.none } }

/-- The state of peer 1 after it successfully initialized rack 77 with
members `[1, 2, 3]` (an `InitialMember` awaiting acks). -/
def fsmAfterInit : Fsm :=
  (fsmU1.init_rack 77 [1, 2, 3] 7 (Except.ok [pkg1, pkg2, pkg3])).1

/-- Peer 1 as an initial member whose rack-secret state is resolved to the
cached secret 424. -/
def fsmSecret : Fsm :=
  { common := { id := 1, config := cfgC, clock := 7, peers := [2, 3],
                pending_api_rack_secret_request := some 5 },
    state := State.initialMember
      { pkg := pkg1, distributed_shares := [], rack_init_state := Option.none,
        pending_learn_requests := [],
        rack_secret_state := some (RackSecretState.secret ⟨424⟩) } }

/-! ## Lemmas about the `BTreeMap` embedding -/

namespace BMap

theorem find?_mem {β : Type} {m : BMap β} {k : Nat} {v : β}
    (h : find? m k = some v) : (k, v) ∈ m := by
  induction m with
  | nil => simp [find?] at h
  | cons p rest ih =>
    obtain ⟨k₁, v₁⟩ := p
    simp only [find?] at h
    split at h
    · next heq =>
      injection h with hv
      subst heq; subst hv
      exact List.mem_cons_self _ _
    · exact List.mem_cons_of_mem _ (ih h)

theorem mem_insert {β : Type} {m : BMap β} {k : Nat} {v : β} {p : Nat × β}
    (h : p ∈ insert m k v) : p = (k, v) ∨ p ∈ m := by
  induction m with
  | nil =>
    simp only [insert] at h
    rcases List.mem_singleton.mp h with h
    exact Or.inl h
  | cons q rest ih =>
    obtain ⟨k₁, v₁⟩ := q
    simp only [insert] at h
    split at h
    · rcases List.mem_cons.mp h with h | h
      · exact Or.inl h
      · exact Or.inr h
    · split at h
      · rcases List.mem_cons.mp h with h | h
        · exact Or.inl h
        · exact Or.inr (List.mem_cons_of_mem _ h)
      · rcases List.mem_cons.mp h with h | h
        · exact Or.inr (List.mem_cons.mpr (Or.inl h))
        · rcases ih h with h | h
          · exact Or.inl h
          · exact Or.inr (List.mem_cons_of_mem _ h)

theorem mem_erase {β : Type} {m : BMap β} {k : Nat} {p : Nat × β}
    (h : p ∈ erase m k) : p ∈ m := by
  induction m with
  | nil => simp [erase] at h
  | cons q rest ih =>
    obtain ⟨k₁, v₁⟩ := q
    simp only [erase] at h
    split at h
    · exact List.mem_cons_of_mem _ h
    · rcases List.mem_cons.mp h with h | h
      · exact List.mem_cons.mpr (Or.inl h)
      · exact List.mem_cons_of_mem _ (ih h)

theorem find?_insert_self {β : Type} (m : BMap β) (k : Nat) (v : β) :
    find? (insert m k v) k = some v := by
  induction m with
  | nil => simp [insert, find?]
  | cons q rest ih =>
    obtain ⟨k₁, v₁⟩ := q
    simp only [insert]
    split
    · simp [find?]
    · split
      · simp [find?]
      · next h1 h2 => simp [find?, h2, ih]

theorem find?_eq_none_of_forall_lt {β : Type} {m : BMap β} {k : Nat}
    (h : ∀ p ∈ m, k < p.1) : find? m k = none := by
  induction m with
  | nil => rfl
  | cons q rest ih =>
    obtain ⟨k₁, v₁⟩ := q
    have hk : k < k₁ := h (k₁, v₁) (List.mem_cons_self _ _)
    simp only [find?, if_neg (Nat.ne_of_lt hk)]
    exact ih (fun p hp => h p (List.mem_cons_of_mem _ hp))

theorem length_insert_of_found {β : Type} {m : BMap β} {k : Nat} {v w : β}
    (hs : SortedKeys m) (h : find? m k = some v) :
    (insert m k w).length = m.length := by
  induction m with
  | nil => simp [find?] at h
  | cons q rest ih =>
    obtain ⟨k₁, v₁⟩ := q
    by_cases hk : k = k₁
    · subst hk
      simp [insert, Nat.lt_irrefl]
    · simp only [find?, if_neg hk] at h
      have hnlt : ¬ k < k₁ := by
        intro hlt
        have hnone : find? rest k = none :=
          find?_eq_none_of_forall_lt (fun p hp =>
            Nat.lt_trans hlt ((List.pairwise_cons.mp hs).1 p hp))
        rw [hnone] at h
        exact Option.noConfusion h
      simp only [insert, if_neg hnlt, if_neg hk, List.length_cons]
      rw [ih (List.pairwise_cons.mp hs).2 h]

theorem find?_erase_self {β : Type} {m : BMap β} {k : Nat}
    (hs : SortedKeys m) : find? (erase m k) k = none := by
  induction m with
  | nil => rfl
  | cons q rest ih =>
    obtain ⟨k₁, v₁⟩ := q
    simp only [erase]
    split
    · next heq =>
      subst heq
      exact find?_eq_none_of_forall_lt (List.pairwise_cons.mp hs).1
    · next hne =>
      simp only [find?, if_neg hne]
      exact ih (List.pairwise_cons.mp hs).2

end BMap

theorem BSet.insert_ne_nil (s : BSet) (x : Nat) : BSet.insert s x ≠ [] := by
  cases s with
  | nil => simp [BSet.insert]
  | cons y rest =>
    simp only [BSet.insert]
    split
    · simp
    · split <;> simp

namespace RequestManager

theorem expiredGo_mem {now : Instant} :
    ∀ (rev : List (Instant × Uuid)) (reqs : BMap TrackableRequest)
      (acc ex : List TrackableRequest) (reqs' : BMap TrackableRequest)
      (rem : List (Instant × Uuid)),
      expiredGo reqs rev now acc = some (ex, reqs', rem) →
      ∀ p ∈ reqs', p ∈ reqs := by
  intro rev
  induction rev with
  | nil =>
    intro reqs acc ex reqs' rem h p hp
    simp only [expiredGo, Option.some.injEq, Prod.mk.injEq] at h
    obtain ⟨-, h2, -⟩ := h
    exact h2 ▸ hp
  | cons hd tl ih =>
    intro reqs acc ex reqs' rem h p hp
    obtain ⟨expiry, request_id⟩ := hd
    simp only [expiredGo] at h
    split at h
    · cases hfind : BMap.find? reqs request_id with
      | none => rw [hfind] at h; exact Option.noConfusion h
      | some req =>
        rw [hfind] at h
        exact BMap.mem_erase (ih _ _ _ _ _ h p hp)
    · simp only [Option.some.injEq, Prod.mk.injEq] at h
      obtain ⟨-, h2, -⟩ := h
      exact h2 ▸ hp

end RequestManager

/-- Every reachable request manager has an empty expected-ack set in every
tracked `InitRack` request: `InitAcks::default()` creates it empty and no
operation ever inserts into it. -/
theorem reachable_initExpectedEmpty {cfg : Config} {rm : RequestManager}
    (h : Reachable cfg rm) : RequestManager.InitExpectedEmptyInv rm := by
  induction h with
  | init =>
    intro p hp
    simp [RequestManager.init] at hp
  | new_init_rack now ru pkgs id h ih =>
    intro p hp
    simp only [RequestManager.new_init_rack, RequestManager.new_request] at hp
    rcases BMap.mem_insert hp with h1 | h1
    · rw [h1]
      simp [TrackableRequest.initExpectedEmpty, InitAcks.default]
    · exact ih p h1
  | new_load_rack_secret now ru th id h ih =>
    intro p hp
    simp only [RequestManager.new_load_rack_secret, RequestManager.new_request] at hp
    rcases BMap.mem_insert hp with h1 | h1
    · rw [h1]
      simp [TrackableRequest.initExpectedEmpty]
    · exact ih p h1
  | new_learn now ru th frm id h ih =>
    intro p hp
    simp only [RequestManager.new_learn, RequestManager.new_request] at hp
    rcases BMap.mem_insert hp with h1 | h1
    · rw [h1]
      simp [TrackableRequest.initExpectedEmpty]
    · exact ih p h1
  | expired now h hstep ih =>
    intro p hp
    unfold RequestManager.expired at hstep
    split at hstep
    · exact Option.noConfusion hstep
    · next ex0 reqs0 rem0 heq =>
      simp only [Option.some.injEq, Prod.mk.injEq] at hstep
      obtain ⟨-, h2⟩ := hstep
      subst h2
      exact ih p (RequestManager.expiredGo_mem _ _ _ _ _ _ heq p hp)
  | on_init_ack frm id h ih =>
    intro p hp
    unfold RequestManager.on_init_ack at hp
    split at hp
    · next ru pkgs acks heq =>
      simp only [] at hp
      split at hp
      · exact ih p (BMap.mem_erase hp)
      · rcases BMap.mem_insert hp with h1 | h1
        · rw [h1]
          have hh := ih _ (BMap.find?_mem heq)
          simpa [TrackableRequest.initExpectedEmpty] using hh
        · exact ih p h1
    · exact ih p hp
  | on_share frm id share h ih =>
    intro p hp
    unfold RequestManager.on_share at hp
    split at hp
    · next ru acks heq =>
      simp only [] at hp
      split at hp
      · exact ih p (BMap.mem_erase hp)
      · rcases BMap.mem_insert hp with h1 | h1
        · rw [h1]
          simp [TrackableRequest.initExpectedEmpty]
        · exact ih p h1
    · next ru frm₀ acks heq =>
      simp only [] at hp
      split at hp
      · exact ih p (BMap.mem_erase hp)
      · rcases BMap.mem_insert hp with h1 | h1
        · rw [h1]
          simp [TrackableRequest.initExpectedEmpty]
        · exact ih p h1
    · exact ih p hp

/-! ## The claims -/

/-- C1: `expired(now)` is claimed to remove and return exactly the tracked
requests whose expiry is `≤ now`, scanning earliest-expiring first and
stopping at the first unexpired entry. The code does the opposite: started
at tick 0 with a `LoadRackSecret` request (id 1) expiring at tick 1 and a
`Learn` request (id 2) expiring at tick 10, a call at `now = 5` returns the
*unexpired* `Learn` request and keeps the long-expired `LoadRackSecret`
request tracked. -/
theorem expired_returns_unexpired_requests :
    RequestManager.expired rmTwo 5 =
      some ([TrackableRequest.learn 77 9 (ShareAcks.new 2)],
        { config := cfgC,
          requests := [(1, TrackableRequest.loadRackSecret 77 (ShareAcks.new 2))],
          expiry_to_id := [(1, 1)] }) := by
  decide

/-- C2: the claimed one-to-one correspondence between the primary request
map and the expiry index fails on reachable states: completing a
threshold-1 `LoadRackSecret` request via `on_share` removes it from the
primary map but leaves its expiry-index entry behind, after which
`expired` panics on its `unwrap` (modelled as `none`). -/
theorem index_invariant_violated :
    Reachable cfgC rmDone ∧ ¬ RequestManager.IndexInvariantSpec rmDone ∧
      RequestManager.expired rmDone 0 = Option.none := by
  refine ⟨?_, by decide, by decide⟩
  exact Reachable.on_share 9 41 ⟨[5]⟩
    (Reachable.new_load_rack_secret 0 77 1 41 Reachable.init)

/-- C3: on every request manager reachable from the empty tracker,
`on_init_ack` returns `false` (the expected-ack set of every `InitRack`
request is empty while the received set becomes nonempty, so they are never
equal) and never removes the request it acknowledges. -/
theorem reachable_on_init_ack_false {cfg : Config} {rm : RequestManager}
    (h : Reachable cfg rm) (frm : Baseboard) (request_id : Uuid) :
    (rm.on_init_ack frm request_id).1 = false ∧
    (BMap.find? (rm.on_init_ack frm request_id).2.requests request_id).isSome
      = (BMap.find? rm.requests request_id).isSome := by
  have hinv := reachable_initExpectedEmpty h
  unfold RequestManager.on_init_ack
  cases hfind : BMap.find? rm.requests request_id with
  | none => simp [hfind]
  | some req =>
    cases req with
    | initRack ru pkgs acks =>
      have hexp : acks.expected = [] := by
        have hh := hinv _ (BMap.find?_mem hfind)
        simpa [TrackableRequest.initExpectedEmpty] using hh
      have hne : BSet.insert acks.received frm ≠ acks.expected := by
        rw [hexp]
        exact BSet.insert_ne_nil _ _
      dsimp only []
      rw [if_neg hne]
      exact ⟨rfl, by simp [BMap.find?_insert_self, hfind]⟩
    | loadRackSecret ru acks => simp [hfind]
    | learn ru frm₀ acks => simp [hfind]

/-- Witness for C3 at a concrete reachable tracker holding one freshly
created `InitRack` request. -/
theorem reachable_on_init_ack_false_witness :
    Reachable cfgC rmInit ∧
      ((rmInit.on_init_ack 2 55).1 = false ∧
        (BMap.find? (rmInit.on_init_ack 2 55).2.requests 55).isSome
          = (BMap.find? rmInit.requests 55).isSome) := by
  have hr : Reachable cfgC rmInit :=
    Reachable.new_init_rack 0 77 [(2, pkg2)] 55 Reachable.init
  exact ⟨hr, reachable_on_init_ack_false hr 2 55⟩

/-- C10: the `Debug` output of a `Share` is the constant string `"Share"`,
independent of the secret bytes, so printing a `Share` cannot leak key
material. -/
theorem share_debug_is_constant (s₁ s₂ : Share) :
    Share.debugFmt s₁ = Share.debugFmt s₂ ∧ Share.debugFmt s₁ = "Share" :=
  ⟨rfl, rfl⟩

/-- `on_init_ack` with an id that is not tracked returns `false` and leaves
the manager untouched. -/
theorem on_init_ack_unknown (rm : RequestManager) (frm : Baseboard)
    (request_id : Uuid)
    (h : BMap.find? rm.requests request_id = Option.none) :
    rm.on_init_ack frm request_id = (false, rm) := by
  unfold RequestManager.on_init_ack
  rw [h]

/-- When `on_init_ack` reports completion, the request has been removed
from the primary map. -/
theorem on_init_ack_true_requests (rm : RequestManager) (frm : Baseboard)
    (request_id : Uuid) (h : (rm.on_init_ack frm request_id).1 = true) :
    (rm.on_init_ack frm request_id).2.requests
      = BMap.erase rm.requests request_id := by
  unfold RequestManager.on_init_ack at h ⊢
  cases hfind : BMap.find? rm.requests request_id with
  | none => rw [hfind] at h; simp at h
  | some req =>
    cases req with
    | initRack ru pkgs acks =>
      rw [hfind] at h
      dsimp only [] at h ⊢
      split at h
      · next hc => rw [if_pos hc]
      · simp at h
    | loadRackSecret ru acks => rw [hfind] at h; simp at h
    | learn ru frm₀ acks => rw [hfind] at h; simp at h

/-- C7: delivering an `InitAck` whose request id matches no tracked request
returns `false` with no state mutation (the manager is returned unchanged,
and the total embedding has no panic); and once a call has reported
completion (`true`) and removed the request, any further `on_init_ack`
delivery for the same request id returns `false` and changes nothing, so
completion is reported at most once even under duplicate delivery. -/
theorem on_init_ack_unknown_drop_and_complete_once (rm : RequestManager)
    (frm frm₂ : Baseboard) (request_id : Uuid)
    (hs : BMap.SortedKeys rm.requests) :
    (BMap.find? rm.requests request_id = Option.none →
      rm.on_init_ack frm request_id = (false, rm)) ∧
    ((rm.on_init_ack frm request_id).1 = true →
      (rm.on_init_ack frm request_id).2.on_init_ack frm₂ request_id
        = (false, (rm.on_init_ack frm request_id).2)) := by
  constructor
  · exact on_init_ack_unknown rm frm request_id
  · intro htrue
    apply on_init_ack_unknown
    rw [on_init_ack_true_requests rm frm request_id htrue]
    exact BMap.find?_erase_self hs

/-- Witness for C7: a tracker holding one `LoadRackSecret` request (id 41)
receives an ack for the unknown id 99. -/
theorem on_init_ack_unknown_drop_witness :
    BMap.SortedKeys rmLoad.requests ∧
      ((BMap.find? rmLoad.requests 99 = Option.none →
        rmLoad.on_init_ack 3 99 = (false, rmLoad)) ∧
      ((rmLoad.on_init_ack 3 99).1 = true →
        (rmLoad.on_init_ack 3 99).2.on_init_ack 4 99
          = (false, (rmLoad.on_init_ack 3 99).2))) :=
  ⟨by decide, on_init_ack_unknown_drop_and_complete_once rmLoad 3 4 99 (by decide)⟩

/-- C6: `on_share` satisfies the claimed contract for every tracked
`LoadRackSecret` or `Learn` request: peer-keyed idempotence (a share from an
already-recorded peer does not grow the collected count, so it cannot cause
completion below the threshold of distinct peers), completion with
consumption exactly when the distinct recorded peers reach the threshold,
and a silent no-op for unknown ids or `InitRack` ids. -/
theorem on_share_contract (rm : RequestManager) (frm : Baseboard)
    (request_id : Uuid) (share : Share) (ru : Uuid) (acks : ShareAcks)
    (frm₀ : Baseboard) (pkgs : BMap SharePkg) (iacks : InitAcks)
    (hs : BMap.SortedKeys rm.requests)
    (hsa : BMap.SortedKeys acks.received) :
    OnShareContract rm frm request_id share ru acks frm₀ pkgs iacks := by
  unfold OnShareContract
  refine ⟨?_, ?_, ?_, ?_⟩
  · intro hfind
    refine ⟨?_, ?_, ?_, ?_⟩
    · intro hmem
      obtain ⟨v, hv⟩ := Option.isSome_iff_exists.mp hmem
      exact BMap.length_insert_of_found hsa hv
    · unfold RequestManager.on_share
      rw [hfind]
      dsimp only []
      split
      · next hc => simp [hc]
      · next hc => simp [hc]
    · intro hsome
      unfold RequestManager.on_share at hsome ⊢
      rw [hfind] at hsome ⊢
      dsimp only [] at hsome ⊢
      split at hsome
      · next hc =>
        rw [if_pos hc]
        exact BMap.find?_erase_self hs
      · simp at hsome
    · intro hnone
      unfold RequestManager.on_share at hnone ⊢
      rw [hfind] at hnone ⊢
      dsimp only [] at hnone ⊢
      split at hnone
      · simp at hnone
      · next hc =>
        rw [if_neg hc]
        exact BMap.find?_insert_self _ _ _
  · intro hfind
    refine ⟨?_, ?_, ?_, ?_⟩
    · intro hmem
      obtain ⟨v, hv⟩ := Option.isSome_iff_exists.mp hmem
      exact BMap.length_insert_of_found hsa hv
    · unfold RequestManager.on_share
      rw [hfind]
      dsimp only []
      split
      · next hc => simp [hc]
      · next hc => simp [hc]
    · intro hsome
      unfold RequestManager.on_share at hsome ⊢
      rw [hfind] at hsome ⊢
      dsimp only [] at hsome ⊢
      split at hsome
      · next hc =>
        rw [if_pos hc]
        exact BMap.find?_erase_self hs
      · simp at hsome
    · intro hnone
      unfold RequestManager.on_share at hnone ⊢
      rw [hfind] at hnone ⊢
      dsimp only [] at hnone ⊢
      split at hnone
      · simp at hnone
      · next hc =>
        rw [if_neg hc]
        exact BMap.find?_insert_self _ _ _
  · intro hnone
    unfold RequestManager.on_share
    rw [hnone]
  · intro hfind
    unfold RequestManager.on_share
    rw [hfind]

/-- Witness for C6 at a tracker holding one threshold-2 `LoadRackSecret`
request (id 41), receiving a share from peer 9. -/
theorem on_share_contract_witness :
    BMap.SortedKeys rmLoad.requests ∧
      BMap.SortedKeys (ShareAcks.new 2).received ∧
      OnShareContract rmLoad 9 41 ⟨[5]⟩ 77 (ShareAcks.new 2) 0 [] InitAcks.default :=
  ⟨by decide, by decide,
    on_share_contract rmLoad 9 41 ⟨[5]⟩ 77 (ShareAcks.new 2) 0 []
      InitAcks.default (by decide) (by decide)⟩

/-- C8: from any state other than `Uninitialized`, `init_rack` returns the
`RackAlreadyInitialized` error and the FSM completely unchanged; the error
output has `persist = false` and no envelopes. -/
theorem init_rack_already_initialized (fsm : Fsm) (rack_uuid : Uuid)
    (members : List Baseboard) (request_id : Uuid)
    (pkgsResult : Except SplitError (List SharePkg))
    (h : fsm.state ≠ State.uninitialized) :
    fsm.init_rack rack_uuid members request_id pkgsResult
      = (fsm, Output.fromApiError ApiError.rackAlreadyInitialized) ∧
    (Output.fromApiError ApiError.rackAlreadyInitialized).persist = false ∧
    (Output.fromApiError ApiError.rackAlreadyInitialized).envelopes = [] := by
  refine ⟨?_, rfl, rfl⟩
  unfold Fsm.init_rack
  cases hst : fsm.state with
  | uninitialized => exact absurd hst h
  | initialMember s => rfl
  | learning s => rfl
  | learned s => rfl

/-- Witness for C8: the second `init_rack` call on a peer whose first call
succeeded fails with `RackAlreadyInitialized` and changes nothing. -/
theorem init_rack_already_initialized_witness :
    fsmAfterInit.state ≠ State.uninitialized ∧
      (fsmAfterInit.init_rack 77 [1, 2, 3] 8 (Except.ok [pkg1, pkg2, pkg3])
          = (fsmAfterInit, Output.fromApiError ApiError.rackAlreadyInitialized) ∧
        (Output.fromApiError ApiError.rackAlreadyInitialized).persist = false ∧
        (Output.fromApiError ApiError.rackAlreadyInitialized).envelopes = []) :=
  ⟨by decide,
    init_rack_already_initialized fsmAfterInit 77 [1, 2, 3] 8
      (Except.ok [pkg1, pkg2, pkg3]) (by decide)⟩

/-- C9: when the rack-secret state is already resolved, `load_rack_secret`
returns the cached secret with `persist = false` and no envelopes, and the
whole FSM (state, clock, peers, pending marker, bookkeeping) is returned
unchanged. -/
theorem load_rack_secret_resolved (fsm : Fsm) (s : RackSecret)
    (h : fsm.resolvedSecret = some s) :
    fsm.load_rack_secret
      = (fsm, { persist := false, envelopes := [],
                api_output := some (ApiResult.ok (ApiOutput.rackSecret s)) }) := by
  obtain ⟨common, state⟩ := fsm
  cases state with
  | uninitialized => simp [Fsm.resolvedSecret] at h
  | learning ls => simp [Fsm.resolvedSecret] at h
  | initialMember ims =>
    obtain ⟨pkg, ds, ris, plr, rss⟩ := ims
    cases rss with
    | none => simp [Fsm.resolvedSecret] at h
    | some rss =>
      cases rss with
      | shares m => simp [Fsm.resolvedSecret] at h
      | secret s₀ =>
        simp only [Fsm.resolvedSecret, Option.some.injEq] at h
        subst h
        rfl
  | learned ls =>
    obtain ⟨pkg, rss⟩ := ls
    cases rss with
    | none => simp [Fsm.resolvedSecret] at h
    | some rss =>
      cases rss with
      | shares m => simp [Fsm.resolvedSecret] at h
      | secret s₀ =>
        simp only [Fsm.resolvedSecret, Option.some.injEq] at h
        subst h
        rfl

/-- Witness for C9 at a concrete initial member with cached secret 424. -/
theorem load_rack_secret_resolved_witness :
    fsmSecret.resolvedSecret = some ⟨424⟩ ∧
      fsmSecret.load_rack_secret
        = (fsmSecret,
           { persist := false, envelopes := [],
             api_output := some (ApiResult.ok (ApiOutput.rackSecret ⟨424⟩)) }) :=
  ⟨by decide, load_rack_secret_resolved fsmSecret ⟨424⟩ (by decide)⟩

/-- Counterexample to C5 as stated: peer 1 is an initial member, knows the
other member 2, and has no rack-secret state, yet `load_rack_secret`
returns an output with an empty envelope list — no `GetShare` request is
emitted by this call (they are sent by the retry machinery instead). -/
theorem load_rack_secret_no_getshare_envelopes :
    fsmIM.rackSecretAbsent = true ∧ fsmIM.common.peers = [2] ∧
      (fsmIM.load_rack_secret).2.envelopes = [] := by
  decide

/-- C5 (amended): from `InitialMember` or `Learned` with absent rack-secret
state, `load_rack_secret` seeds the secret state with the local peer's own
share, records the pending-request marker at the current clock, and returns
`Output::none()` — no envelopes, no `api_output`, `persist = false`;
everything else in the FSM is unchanged. -/
theorem load_rack_secret_seeds (fsm : Fsm) (sh : Share)
    (habs : fsm.rackSecretAbsent = true)
    (hsh : fsm.ownShare = some sh) :
    (fsm.load_rack_secret).2 = Output.empty ∧
    (fsm.load_rack_secret).1.common
      = { fsm.common with
          pending_api_rack_secret_request := some fsm.common.clock } ∧
    (fsm.load_rack_secret).1.state
      = fsm.state.withRackSecretState
          (some (RackSecretState.shares [(fsm.common.id, sh)])) := by
  obtain ⟨common, state⟩ := fsm
  cases state with
  | uninitialized => simp [Fsm.rackSecretAbsent] at habs
  | learning ls => simp [Fsm.rackSecretAbsent] at habs
  | initialMember ims =>
    obtain ⟨pkg, ds, ris, plr, rss⟩ := ims
    cases rss with
    | some rss => simp [Fsm.rackSecretAbsent] at habs
    | none =>
      simp only [Fsm.ownShare, Option.some.injEq] at hsh
      subst hsh
      exact ⟨rfl, rfl, rfl⟩
  | learned ls =>
    obtain ⟨pkg, rss⟩ := ls
    cases rss with
    | some rss => simp [Fsm.rackSecretAbsent] at habs
    | none =>
      simp only [Fsm.ownShare, Option.some.injEq] at hsh
      subst hsh
      exact ⟨rfl, rfl, rfl⟩

/-- Witness for the amended C5 at peer 1 (initial member, share `[101]`). -/
theorem load_rack_secret_seeds_witness :
    fsmIM.rackSecretAbsent = true ∧ fsmIM.ownShare = some ⟨[101]⟩ ∧
      ((fsmIM.load_rack_secret).2 = Output.empty ∧
        (fsmIM.load_rack_secret).1.common
          = { fsmIM.common with
              pending_api_rack_secret_request := some fsmIM.common.clock } ∧
        (fsmIM.load_rack_secret).1.state
          = fsmIM.state.withRackSecretState
              (some (RackSecretState.shares [(fsmIM.common.id, ⟨[101]⟩)]))) :=
  ⟨by decide, by decide,
    load_rack_secret_seeds fsmIM ⟨[101]⟩ (by decide) (by decide)⟩

/-- The destinations of the `Init` envelopes built by `Fsm::init_rack` are
exactly the members other than the caller, in membership order. -/
theorem init_envelopes_map_to (myid rid : Nat) :
    ∀ (pkgs : List SharePkg) (members : List Baseboard),
      pkgs.length = members.length →
      ((pkgs.zip members).filterMap (fun p =>
          if p.2 == myid then Option.none
          else some { to_ := p.2,
                      msg := Msg.req { id := rid,
                                       type_ := RequestType.init p.1 } })).map
          Envelope.to_
        = members.filter (fun p => p != myid) := by
  intro pkgs
  induction pkgs with
  | nil =>
    intro members h
    cases members with
    | nil => rfl
    | cons m ms => simp at h
  | cons p ps ih =>
    intro members h
    cases members with
    | nil => simp at h
    | cons m ms =>
      have h' : ps.length = ms.length := by simpa using h
      by_cases hm : m = myid
      · subst hm
        simp
        simpa using ih ms h'
      · simp [hm]
        simpa using ih ms h'

/-- Every envelope built by `Fsm::init_rack` is an `Init` request carrying
the fresh request id. -/
theorem init_envelopes_all_init (myid rid : Nat) (pkgs : List SharePkg)
    (members : List Baseboard) :
    ∀ e ∈ (pkgs.zip members).filterMap (fun p =>
        if p.2 == myid then Option.none
        else some { to_ := p.2,
                    msg := Msg.req { id := rid,
                                     type_ := RequestType.init p.1 } }),
      Envelope.isInitReq rid e = true := by
  intro e he
  simp only [List.mem_filterMap] at he
  obtain ⟨p, hp, hpe⟩ := he
  by_cases hm : p.2 = myid
  · simp [hm] at hpe
  · simp only [beq_iff_eq, if_neg hm] at hpe
    injection hpe with hpe
    rw [← hpe]
    simp [Envelope.isInitReq]

/-- Searching the zipped package/member list for the caller finds the
package at the caller's position, when the membership list is strictly
sorted. -/
theorem zip_find_self (myid : Nat) :
    ∀ (pkgs : List SharePkg) (members : List Baseboard) (k : Nat)
      (pkg : SharePkg),
      List.Pairwise (fun a b => a < b) members →
      members[k]? = some myid → pkgs[k]? = some pkg →
      (pkgs.zip members).find? (fun p => p.2 == myid) = some (pkg, myid) := by
  intro pkgs
  induction pkgs with
  | nil =>
    intro members k pkg hp hm hpk
    simp at hpk
  | cons p ps ih =>
    intro members k pkg hp hm hpk
    cases members with
    | nil => simp at hm
    | cons m ms =>
      cases k with
      | zero =>
        simp only [List.getElem?_cons_zero, Option.some.injEq] at hm hpk
        subst hm
        subst hpk
        simp [List.find?]
      | succ k =>
        simp only [List.getElem?_cons_succ] at hm hpk
        have hmem : myid ∈ ms := List.getElem?_mem hm
        have hlt : m < myid := (List.pairwise_cons.mp hp).1 myid hmem
        have hne : ¬ (m = myid) := Nat.ne_of_lt hlt
        have hih := ih ms k pkg (List.pairwise_cons.mp hp).2 hm hpk
        have hbeq : (m == myid) = false := by simp [hne]
        simp only [List.zip, List.find?, hbeq]
        simpa [List.zip] using hih

/-- Counterexample to C4 as stated: peer 0 calls `init_rack` from
`Uninitialized` with membership `[1]` (which does not contain peer 0) and a
successful split; the output has `persist = true` but the FSM does *not*
transition to `InitialMember` — it stays `Uninitialized`, because the
transition happens only in the zip branch where a member equals the
caller. -/
theorem init_rack_caller_not_member :
    fsmU0.state = State.uninitialized ∧
      (fsmU0.init_rack 77 [1] 7 (Except.ok [pkg1])).2.persist = true ∧
      (fsmU0.init_rack 77 [1] 7 (Except.ok [pkg1])).1.state
        = State.uninitialized := by
  decide

/-- C4 (amended): from `Uninitialized`, when the split succeeds with one
package per member and the calling peer is itself a member (at position
`k`), `init_rack` returns `persist = true` with no `api_output`, emits
exactly one envelope per member other than the caller (none to the caller),
each an `Init` request with the fresh id, and transitions to
`InitialMember` keeping the caller's own package, with a fresh
`RackInitState` whose ack set holds only the caller (so every other member
is still expected); a failed split returns the `RackInitFailed` error
unchanged. -/
theorem init_rack_success (fsm : Fsm) (rack_uuid : Uuid)
    (members : List Baseboard) (request_id : Uuid) (pkgs : List SharePkg)
    (k : Nat) (pkg_self : SharePkg) (e : SplitError)
    (hstate : fsm.state = State.uninitialized)
    (hsorted : List.Pairwise (fun a b => a < b) members)
    (hlen : pkgs.length = members.length)
    (hk : members[k]? = some fsm.common.id)
    (hpkg : pkgs[k]? = some pkg_self) :
    ((fsm.init_rack rack_uuid members request_id (Except.ok pkgs)).2.persist
        = true ∧
      (fsm.init_rack rack_uuid members request_id (Except.ok pkgs)).2.api_output
        = Option.none ∧
      (fsm.init_rack rack_uuid members request_id
          (Except.ok pkgs)).2.envelopes.map Envelope.to_
        = members.filter (fun p => p != fsm.common.id) ∧
      (fsm.init_rack rack_uuid members request_id
          (Except.ok pkgs)).2.envelopes.all (Envelope.isInitReq request_id)
        = true ∧
      (fsm.init_rack rack_uuid members request_id (Except.ok pkgs)).1.common
        = fsm.common ∧
      (fsm.init_rack rack_uuid members request_id (Except.ok pkgs)).1.state
        = State.initialMember
            { pkg := pkg_self, distributed_shares := [],
              rack_init_state := some
                { start := fsm.common.clock,
                  total_members := members.length,
                  acks := [fsm.common.id] },
              pending_learn_requests := [],
              rack_secret_state := Option.none }) ∧
    fsm.init_rack rack_uuid members request_id (Except.error e)
      = (fsm, Output.fromApiError (ApiError.rackInitFailed e)) := by
  have hfind := zip_find_self fsm.common.id pkgs members k pkg_self hsorted hk hpkg
  constructor
  · unfold Fsm.init_rack
    rw [hstate]
    dsimp only []
    rw [hfind]
    refine ⟨rfl, rfl, ?_, ?_, rfl, rfl⟩
    · exact init_envelopes_map_to fsm.common.id request_id pkgs members hlen
    · exact List.all_eq_true.mpr
        (init_envelopes_all_init fsm.common.id request_id pkgs members)
  · unfold Fsm.init_rack
    rw [hstate]

/-- Witness for the amended C4: peer 1 initializes rack 77 with members
`[1, 2, 3]` and packages `[pkg1, pkg2, pkg3]`. -/
theorem init_rack_success_witness :
    fsmU1.state = State.uninitialized ∧
      List.Pairwise (fun a b => a < b) ([1, 2, 3] : List Baseboard) ∧
      ([pkg1, pkg2, pkg3] : List SharePkg).length
        = ([1, 2, 3] : List Baseboard).length ∧
      ([1, 2, 3] : List Baseboard)[0]? = some fsmU1.common.id ∧
      ([pkg1, pkg2, pkg3] : List SharePkg)[0]? = some pkg1 ∧
      (((fsmU1.init_rack 77 [1, 2, 3] 7
            (Except.ok [pkg1, pkg2, pkg3])).2.persist = true ∧
        (fsmU1.init_rack 77 [1, 2, 3] 7
            (Except.ok [pkg1, pkg2, pkg3])).2.api_output = Option.none ∧
        (fsmU1.init_rack 77 [1, 2, 3] 7
            (Except.ok [pkg1, pkg2, pkg3])).2.envelopes.map Envelope.to_
          = ([1, 2, 3] : List Baseboard).filter (fun p => p != fsmU1.common.id) ∧
        (fsmU1.init_rack 77 [1, 2, 3] 7
            (Except.ok [pkg1, pkg2, pkg3])).2.envelopes.all
            (Envelope.isInitReq 7) = true ∧
        (fsmU1.init_rack 77 [1, 2, 3] 7
            (Except.ok [pkg1, pkg2, pkg3])).1.common = fsmU1.common ∧
        (fsmU1.init_rack 77 [1, 2, 3] 7
            (Except.ok [pkg1, pkg2, pkg3])).1.state
          = State.initialMember
              { pkg := pkg1, distributed_shares := [],
                rack_init_state := some
                  { start := fsmU1.common.clock, total_members := 3,
                    acks := [fsmU1.common.id] },
                pending_learn_requests := [],
                rack_secret_state := Option.none }) ∧
      fsmU1.init_rack 77 [1, 2, 3] 7 (Except.error ⟨0⟩)
        = (fsmU1, Output.fromApiError (ApiError.rackInitFailed ⟨0⟩))) :=
  ⟨by decide, by decide, by decide, by decide, by decide,
    init_rack_success fsmU1 77 [1, 2, 3] 7 [pkg1, pkg2, pkg3] 0 pkg1 ⟨0⟩
      (by decide) (by decide) (by decide) (by decide) (by decide)⟩

end Bootstore
